import Mathlib

/-!
Verification of the advanced-vector container (`src/advanced-vector/vector.h`):
a shallow embedding of `RawMemory<T>` / `Vector<T>` and proofs about the
growth policy, copy/move assignment, insertion, erasure, resize and the
exception-safety bookkeeping of the reallocation paths.

The observable state of a `Vector<T>` is its sequence of live element values
(slots `[0, size_)`) together with `data_.Capacity()`.  We embed that state as
a list of values plus a capacity.  Exception paths are embedded by threading
an explicit failure point through the operation and recording which element
constructors/destructors ran before the failure propagates.
-/

namespace AdvVector

/-- Observable state of `Vector<T>`: `elems` are the live values in slots
`[0, size_)` (so `elems.length` is `size_`) and `cap` is `data_.Capacity()`. -/
structure Vec (α : Type) where
  elems : List α
  cap : Nat
deriving Repr, DecidableEq

/-- Well-formedness invariant of `Vector<T>`: `size_` never exceeds
`data_.Capacity()`. -/
def Vec.WF {α : Type} (v : Vec α) : Prop := v.elems.length ≤ v.cap

instance {α : Type} (v : Vec α) : Decidable v.WF := by
  unfold Vec.WF; infer_instance

/-- Capacity chosen by every growth site (`PushBack`, `EmplaceWithAllocation`):
`size_ == 0 ? 1 : size_ * 2`. -/
def newCapacity (size : Nat) : Nat := if size = 0 then 1 else size * 2

/-- `Vector()` — default construction: `size_ = 0`, null buffer of capacity 0. -/
def emptyVec {α : Type} : Vec α := ⟨[], 0⟩

/-- `Vector(size_t size)` — `data_(size), size_(size)` then
`uninitialized_value_construct_n`: `size` value-constructed elements, capacity
exactly `size`.  `d` stands for the value-constructed (default) element. -/
def MkSized {α : Type} (n : Nat) (d : α) : Vec α := ⟨List.replicate n d, n⟩

/-- `PushBack` (success path): when `size_ == Capacity()` a new block of
`newCapacity size_` is allocated, the new element is constructed at slot
`size_` of the new block, the old elements are transferred in front of it and
the storage is swapped; otherwise the element is constructed at slot `size_`
of the current block.  Either way the observable result appends the value. -/
def PushBack {α : Type} (v : Vec α) (x : α) : Vec α :=
  if v.elems.length = v.cap then
    ⟨v.elems ++ [x], newCapacity v.elems.length⟩
  else
    ⟨v.elems ++ [x], v.cap⟩

/-- State after `n` sequential `PushBack` calls starting from `Vector()`
(the appended values are irrelevant to the capacity sequence; we append the
index). -/
def appendN : Nat → Vec Nat
  | 0 => emptyVec
  | n + 1 => PushBack (appendN n) n

/-- `Reserve(new_capacity)`: no-op when `new_capacity <= data_.Capacity()`;
otherwise allocates a block of exactly `new_capacity`, transfers the elements
(`MoveDataTo`) and swaps. -/
def Reserve {α : Type} (v : Vec α) (n : Nat) : Vec α :=
  if n ≤ v.cap then v else ⟨v.elems, n⟩

/-- `PopBack()`: destroys the element at `size_ - 1` and decrements `size_`.
Calling it on an empty vector is a caller-contract violation; the embedding is
only applied to non-empty states. -/
def PopBack {α : Type} (v : Vec α) : Vec α := ⟨v.elems.dropLast, v.cap⟩

/-- `Erase(pos)`: `destroy_at(pos)`, then `std::move(pos+1, end, pos)` shifts
every following value one slot toward the front, then `--size_`.  On values
this is exactly `List.eraseIdx` (`take i ++ drop (i+1)`). -/
def Erase {α : Type} (v : Vec α) (i : Nat) : Vec α :=
  ⟨v.elems.eraseIdx i, v.cap⟩

/-- `EmplaceWithAllocation(position, args)` (success path): allocates
`newCapacity size_`, constructs the new element at offset `pos_num` of the new
block, transfers `[begin, pos)` to the front of the new block, transfers
`[pos, end)` starting at `pos_num + 1`, then destroys the originals and swaps.
Observably the value is inserted at index `i` and the capacity grows. -/
def EmplaceWithAllocation {α : Type} (v : Vec α) (i : Nat) (x : α) : Vec α :=
  ⟨v.elems.take i ++ x :: v.elems.drop i, newCapacity v.elems.length⟩

/-- `EmplaceInPosition(position, args)` (success path, `size_ < Capacity()`).
When `pos == end()` the element is constructed directly at `end()`.  Otherwise:
`tmp_value` is built, the last element is move-constructed into slot `size_`
(buffer becomes `take (i+1) ++ drop i` on values once `move_backward` has
shifted `[pos, end-1)` one slot toward the end), and finally `*pos` is
move-assigned from `tmp_value` (`List.set i x`). -/
def EmplaceInPosition {α : Type} (v : Vec α) (i : Nat) (x : α) : Vec α :=
  if i = v.elems.length then
    ⟨v.elems ++ [x], v.cap⟩
  else
    ⟨(v.elems.take (i + 1) ++ v.elems.drop i).set i x, v.cap⟩

/-- `Emplace(pos, args)`: dispatches on `size_ == Capacity()` between the
reallocating and the in-place insertion paths. -/
def Emplace {α : Type} (v : Vec α) (i : Nat) (x : α) : Vec α :=
  if v.elems.length = v.cap then EmplaceWithAllocation v i x
  else EmplaceInPosition v i x

/-- Helper: `PushBack` appends the value on both branches. -/
theorem PushBack_elems {α : Type} (v : Vec α) (x : α) :
    (PushBack v x).elems = v.elems ++ [x] := by
  unfold PushBack
  split <;> rfl

/-- Helper: capacity after a growth-triggering `PushBack`. -/
theorem PushBack_cap_of_full {α : Type} (v : Vec α) (x : α)
    (h : v.elems.length = v.cap) :
    (PushBack v x).cap = newCapacity v.elems.length := by
  unfold PushBack
  rw [if_pos h]

/-- Helper: capacity is untouched by a non-growing `PushBack`. -/
theorem PushBack_cap_of_spare {α : Type} (v : Vec α) (x : α)
    (h : ¬ v.elems.length = v.cap) :
    (PushBack v x).cap = v.cap := by
  unfold PushBack
  rw [if_neg h]

/-- Helper: `insertIdx` as an explicit `take`/`drop` splice. -/
theorem insertIdx_eq_take_cons_drop {α : Type} :
    ∀ (i : Nat) (l : List α), i ≤ l.length →
      ∀ x : α, List.insertIdx i x l = l.take i ++ x :: l.drop i
  | 0, l, _, x => rfl
  | i + 1, [], h, x => by simp at h
  | i + 1, a :: l, h, x => by
      simp only [List.insertIdx_succ_cons, List.take_succ_cons, List.drop_succ_cons,
        List.cons_append]
      rw [insertIdx_eq_take_cons_drop i l (Nat.le_of_succ_le_succ h) x]

/-- Helper: the post-shift buffer of `EmplaceInPosition`, with the temporary
move-assigned into slot `i`, is the `take`/`drop` splice. -/
theorem set_shift_splice {α : Type} :
    ∀ (l : List α) (i : Nat), i < l.length →
      ∀ x : α, (l.take (i + 1) ++ l.drop i).set i x = l.take i ++ x :: l.drop i
  | [], i, h, x => by simp at h
  | a :: t, 0, _, x => by simp
  | a :: t, j + 1, h, x => by
      simp only [List.take_succ_cons, List.drop_succ_cons, List.cons_append,
        List.set_cons_succ]
      rw [set_shift_splice t j (Nat.lt_of_succ_lt_succ h) x]

/-- Helper: both insertion paths produce the `insertIdx` splice on values. -/
theorem Emplace_elems {α : Type} (v : Vec α) (i : Nat) (x : α)
    (h : i ≤ v.elems.length) :
    (Emplace v i x).elems = List.insertIdx i x v.elems := by
  rw [insertIdx_eq_take_cons_drop i v.elems h x]
  unfold Emplace EmplaceWithAllocation EmplaceInPosition
  rcases Nat.lt_or_eq_of_le h with hlt | heq
  · have hne : ¬ i = v.elems.length := Nat.ne_of_lt hlt
    by_cases hcap : v.elems.length = v.cap
    · rw [if_pos hcap]
    · rw [if_neg hcap, if_neg hne]
      exact set_shift_splice v.elems i hlt x
  · by_cases hcap : v.elems.length = v.cap
    · rw [if_pos hcap]
    · rw [if_neg hcap, if_pos heq]
      show v.elems ++ [x] = v.elems.take i ++ x :: v.elems.drop i
      rw [heq, List.take_length, List.drop_length]

/-- Element-lifecycle bookkeeping of one `Resize` call: how many elements were
default-constructed and how many destroyed. -/
structure ResizeTrace where
  constructed : Nat
  destroyed : Nat
deriving Repr, DecidableEq

/-- `Resize(new_size)` with its lifecycle trace.  Source: equal size returns at
once; smaller size runs `destroy_n(data_ + new_size, size_ - new_size)`;
larger size runs `Reserve(new_size)` then
`uninitialized_default_construct_n(data_ + size_, new_size - size_)`. -/
def ResizeTr {α : Type} (v : Vec α) (d : α) (n : Nat) : Vec α × ResizeTrace :=
  if n = v.elems.length then (v, ⟨0, 0⟩)
  else if n < v.elems.length then
    (⟨v.elems.take n, v.cap⟩, ⟨0, v.elems.length - n⟩)
  else
    (⟨v.elems ++ List.replicate (n - v.elems.length) d, (Reserve v n).cap⟩,
     ⟨n - v.elems.length, 0⟩)

/-- Observable state after `Resize(new_size)`. -/
def Resize {α : Type} (v : Vec α) (d : α) (n : Nat) : Vec α := (ResizeTr v d n).1

/-- Element-lifecycle bookkeeping of one copy-assignment: how many receiver
slots were copy-assigned over, how many elements were copy-constructed, how
many receiver elements were destroyed, and whether the wholesale
copy-and-swap path ran. -/
structure AssignTrace where
  assigned : Nat
  constructed : Nat
  destroyed : Nat
  wholesale : Bool
deriving Repr, DecidableEq

/-- `operator=(const Vector&)`.  `isSelf` models the `this == &rhs` identity
check.  Source cases: `rhs.size_ > data_.Capacity()` builds `Vector
rhs_copy(rhs)` (copy-constructing `rhs.size_` elements into a block of exactly
`rhs.size_`) and swaps it in, the receiver's old elements dying with the
temporary; `rhs.size_ <= size_` copy-assigns the first `rhs.size_` slots and
destroys the tail; otherwise copy-assigns the first `size_` slots and
copy-constructs the remaining `rhs.size_ - size_` into the allocated tail. -/
def CopyAssign {α : Type} (isSelf : Bool) (lhs rhs : Vec α) : Vec α × AssignTrace :=
  if isSelf then (lhs, ⟨0, 0, 0, false⟩)
  else if lhs.cap < rhs.elems.length then
    (⟨rhs.elems, rhs.elems.length⟩, ⟨0, rhs.elems.length, lhs.elems.length, true⟩)
  else if rhs.elems.length ≤ lhs.elems.length then
    (⟨rhs.elems, lhs.cap⟩,
     ⟨rhs.elems.length, 0, lhs.elems.length - rhs.elems.length, false⟩)
  else
    (⟨rhs.elems, lhs.cap⟩,
     ⟨lhs.elems.length, rhs.elems.length - lhs.elems.length, 0, false⟩)

/-- Public mutating operations of `Vector<T>`, for reachability statements.
The index/size arguments carry the caller-contract preconditions the header
documents (valid position, non-empty for `PopBack`); `applyOp` guards them. -/
inductive Op (α : Type) where
  | push (x : α)
  | pop
  | emplaceOp (i : Nat) (x : α)
  | eraseOp (i : Nat)
  | resizeOp (n : Nat)
  | reserveOp (n : Nat)

/-- Execute one public operation (precondition-guarded, success paths). -/
def applyOp {α : Type} [Inhabited α] (v : Vec α) : Op α → Vec α
  | .push x => PushBack v x
  | .pop => if v.elems.isEmpty then v else PopBack v
  | .emplaceOp i x => if i ≤ v.elems.length then Emplace v i x else v
  | .eraseOp i => if i < v.elems.length then Erase v i else v
  | .resizeOp n => Resize v default n
  | .reserveOp n => Reserve v n

/-- Helper: the grown capacity always accommodates one more element. -/
theorem le_newCapacity (s : Nat) : s + 1 ≤ newCapacity s := by
  unfold newCapacity
  split <;> omega

/-- Helper: capacity after `Emplace` on either path. -/
theorem Emplace_cap {α : Type} (v : Vec α) (i : Nat) (x : α) :
    (Emplace v i x).cap =
      if v.elems.length = v.cap then newCapacity v.elems.length else v.cap := by
  unfold Emplace EmplaceWithAllocation EmplaceInPosition
  by_cases hcap : v.elems.length = v.cap
  · rw [if_pos hcap, if_pos hcap]
  · rw [if_neg hcap, if_neg hcap]
    by_cases hi : i = v.elems.length
    · rw [if_pos hi]
    · rw [if_neg hi]

/-- Helper: every single public operation preserves `size_ ≤ Capacity()`. -/
theorem applyOp_WF {α : Type} [Inhabited α] (v : Vec α) (op : Op α) (h : v.WF) :
    (applyOp v op).WF := by
  unfold Vec.WF at h ⊢
  cases op with
  | push x =>
    show (PushBack v x).elems.length ≤ (PushBack v x).cap
    rw [PushBack_elems, List.length_append]
    by_cases hc : v.elems.length = v.cap
    · rw [PushBack_cap_of_full _ _ hc]
      simpa using le_newCapacity v.elems.length
    · rw [PushBack_cap_of_spare _ _ hc]
      have : v.elems.length < v.cap := Nat.lt_of_le_of_ne h hc
      simpa using this
  | pop =>
    show (if v.elems.isEmpty then v else PopBack v).elems.length ≤
      (if v.elems.isEmpty then v else PopBack v).cap
    by_cases he : v.elems.isEmpty
    · rw [if_pos he]; exact h
    · rw [if_neg he]
      show v.elems.dropLast.length ≤ v.cap
      rw [List.length_dropLast]
      omega
  | emplaceOp i x =>
    show (if i ≤ v.elems.length then Emplace v i x else v).elems.length ≤
      (if i ≤ v.elems.length then Emplace v i x else v).cap
    by_cases hi : i ≤ v.elems.length
    · rw [if_pos hi, Emplace_elems v i x hi, List.length_insertIdx i _ hi,
        Emplace_cap]
      by_cases hc : v.elems.length = v.cap
      · rw [if_pos hc]
        exact le_newCapacity v.elems.length
      · rw [if_neg hc]
        exact Nat.lt_of_le_of_ne h hc
    · rw [if_neg hi]; exact h
  | eraseOp i =>
    show (if i < v.elems.length then Erase v i else v).elems.length ≤
      (if i < v.elems.length then Erase v i else v).cap
    by_cases hi : i < v.elems.length
    · rw [if_pos hi]
      show (v.elems.eraseIdx i).length ≤ v.cap
      have := List.length_eraseIdx_le v.elems i
      omega
    · rw [if_neg hi]; exact h
  | resizeOp n =>
    show (Resize v default n).elems.length ≤ (Resize v default n).cap
    unfold Resize ResizeTr
    by_cases h1 : n = v.elems.length
    · rw [if_pos h1]; exact h
    · rw [if_neg h1]
      by_cases h2 : n < v.elems.length
      · rw [if_pos h2]
        show (v.elems.take n).length ≤ v.cap
        rw [List.length_take]
        omega
      · rw [if_neg h2]
        show (v.elems ++ List.replicate (n - v.elems.length) default).length ≤
          (Reserve v n).cap
        rw [List.length_append, List.length_replicate]
        unfold Reserve
        by_cases h3 : n ≤ v.cap
        · rw [if_pos h3]
          show v.elems.length + (n - v.elems.length) ≤ v.cap
          omega
        · rw [if_neg h3]
          show v.elems.length + (n - v.elems.length) ≤ n
          omega
  | reserveOp n =>
    show (Reserve v n).elems.length ≤ (Reserve v n).cap
    unfold Reserve
    by_cases h3 : n ≤ v.cap
    · rw [if_pos h3]; exact h
    · rw [if_neg h3]
      show v.elems.length ≤ n
      omega

/-- C4: whenever an insertion finds `size_ == Capacity()`, the newly acquired
capacity (`size_ == 0 ? 1 : size_ * 2` at both growth sites) equals
`max 1 (2 × old capacity)`; consequently, after `n ≥ 1` appends from empty the
capacity is the least power of two that is `≥ n`, and the first capacities are
`0, 1, 2, 4, 4, 8, 8, 8, 8`. -/
theorem growth_capacity_policy :
    (∀ s c : Nat, s = c → newCapacity s = max 1 (2 * c)) ∧
    (∀ n : Nat, 1 ≤ n →
      ∃ k : Nat, (appendN n).cap = 2 ^ k ∧ n ≤ 2 ^ k ∧ 2 ^ k < 2 * n) ∧
    (List.range 9).map (fun n => (appendN n).cap) = [0, 1, 2, 4, 4, 8, 8, 8, 8] := by
  refine ⟨?_, ?_, by decide⟩
  · intro s c h
    subst h
    unfold newCapacity
    rcases Nat.eq_zero_or_pos s with h0 | hpos
    · simp [h0]
    · have : ¬ s = 0 := Nat.pos_iff_ne_zero.mp hpos
      simp [this]
      omega
  · have key : ∀ n : Nat, (appendN n).elems.length = n ∧
        ((n = 0 ∧ (appendN n).cap = 0) ∨
         ∃ k : Nat, (appendN n).cap = 2 ^ k ∧ n ≤ 2 ^ k ∧ 2 ^ k < 2 * n) := by
      intro n
      induction n with
      | zero => exact ⟨rfl, Or.inl ⟨rfl, rfl⟩⟩
      | succ m ih =>
        obtain ⟨hlen, hcases⟩ := ih
        have hstep : appendN (m + 1) = PushBack (appendN m) m := rfl
        have hlen1 : (appendN (m + 1)).elems.length = m + 1 := by
          rw [hstep, PushBack_elems, List.length_append, hlen]
          rfl
        refine ⟨hlen1, ?_⟩
        rcases hcases with ⟨hm0, hcap0⟩ | ⟨k, hk, hle, hlt⟩
        · subst hm0
          refine Or.inr ⟨0, ?_, by omega, by omega⟩
          have hfull : (appendN 0).elems.length = (appendN 0).cap := by
            rw [hlen, hcap0]
          rw [hstep, PushBack_cap_of_full _ _ hfull, hlen]
          rfl
        · rcases Nat.lt_or_eq_of_le hle with hmlt | hmeq
          · refine Or.inr ⟨k, ?_, by omega, by omega⟩
            have hne : ¬ (appendN m).elems.length = (appendN m).cap := by
              rw [hlen, hk]; omega
            rw [hstep, PushBack_cap_of_spare _ _ hne, hk]
          · have hm1 : 1 ≤ m := by
              have := Nat.one_le_two_pow (n := k)
              omega
            refine Or.inr ⟨k + 1, ?_, by omega, by omega⟩
            have hfull : (appendN m).elems.length = (appendN m).cap := by
              rw [hlen, hk]; omega
            rw [hstep, PushBack_cap_of_full _ _ hfull, hlen]
            unfold newCapacity
            rw [if_neg (by omega : ¬ m = 0), hmeq, Nat.pow_succ]
    intro n hn
    rcases (key n).2 with ⟨h0, _⟩ | hgood
    · omega
    · exact hgood

/-- Witness for `growth_capacity_policy` at concrete inputs. -/
theorem growth_capacity_policy_witness :
    newCapacity 4 = max 1 (2 * 4) ∧
    (∃ k : Nat, (appendN 3).cap = 2 ^ k ∧ 3 ≤ 2 ^ k ∧ 2 ^ k < 2 * 3) :=
  ⟨growth_capacity_policy.1 4 4 rfl, growth_capacity_policy.2.1 3 (by decide)⟩

/-- C8: for every vector and every valid insertion index `i ≤ size`, inserting
a value at `i` (`Emplace`, on whichever path) and then erasing at `i` restores
the original element sequence exactly: same size, same values, same order. -/
theorem emplace_then_erase_roundtrip {α : Type} (v : Vec α) (i : Nat) (x : α)
    (h : i ≤ v.elems.length) :
    (Erase (Emplace v i x) i).elems = v.elems ∧
    (Erase (Emplace v i x) i).elems.length = v.elems.length := by
  have helems : (Erase (Emplace v i x) i).elems = v.elems := by
    unfold Erase
    rw [Emplace_elems v i x h]
    exact List.eraseIdx_insertIdx i v.elems
  exact ⟨helems, by rw [helems]⟩

/-- Witness for `emplace_then_erase_roundtrip`: insert 9 at index 1 of
`[1, 2, 3]` (capacity 4) and erase it again. -/
theorem emplace_then_erase_roundtrip_witness :
    (Erase (Emplace (⟨[1, 2, 3], 4⟩ : Vec Nat) 1 9) 1).elems = [1, 2, 3] :=
  (emplace_then_erase_roundtrip ⟨[1, 2, 3], 4⟩ 1 9 (by decide)).1

/-- C7: `Resize` to the current size is a no-op with no constructions or
destructions; to a smaller size it destroys exactly the excess tail, keeping
capacity and the prefix; to a larger size it reserves if needed and
default-constructs the new tail.  Uniformly (for well-formed states): the
result holds `take n` of the old values followed by `n - size` defaults, the
capacity becomes `max cap n` (so it never shrinks), and the trace is
`⟨n - size, size - n⟩`.  Scenario: `Vector(5)` has size 5, capacity 5, all
default values; `Resize(2)` leaves capacity 5 and the first two elements. -/
theorem resize_cases {α : Type} (v : Vec α) (d : α) (n : Nat) (hwf : v.WF) :
    (ResizeTr v d n).1.elems = v.elems.take n ++ List.replicate (n - v.elems.length) d ∧
    (ResizeTr v d n).1.cap = max v.cap n ∧
    (ResizeTr v d n).2 = ⟨n - v.elems.length, v.elems.length - n⟩ ∧
    ResizeTr (MkSized 5 (0 : Nat)) 0 5 = (⟨[0, 0, 0, 0, 0], 5⟩, ⟨0, 0⟩) ∧
    ResizeTr (MkSized 5 (0 : Nat)) 0 2 = (⟨[0, 0], 5⟩, ⟨0, 3⟩) := by
  unfold Vec.WF at hwf
  refine ⟨?_, ?_, ?_, by decide, by decide⟩ <;> unfold ResizeTr
  · by_cases h1 : n = v.elems.length
    · rw [if_pos h1, h1]
      simp
    · rw [if_neg h1]
      by_cases h2 : n < v.elems.length
      · rw [if_pos h2]
        have : n - v.elems.length = 0 := by omega
        simp [this]
      · rw [if_neg h2]
        show v.elems ++ _ = v.elems.take n ++ _
        rw [List.take_of_length_le (by omega)]
  · by_cases h1 : n = v.elems.length
    · rw [if_pos h1]
      show v.cap = max v.cap n
      omega
    · rw [if_neg h1]
      by_cases h2 : n < v.elems.length
      · rw [if_pos h2]
        show v.cap = max v.cap n
        omega
      · rw [if_neg h2]
        show (Reserve v n).cap = max v.cap n
        unfold Reserve
        by_cases h3 : n ≤ v.cap
        · rw [if_pos h3]; omega
        · rw [if_neg h3]; show n = max v.cap n; omega
  · by_cases h1 : n = v.elems.length
    · rw [if_pos h1]
      show (⟨0, 0⟩ : ResizeTrace) = ⟨n - v.elems.length, v.elems.length - n⟩
      rw [h1]
      simp
    · rw [if_neg h1]
      by_cases h2 : n < v.elems.length
      · rw [if_pos h2]
        show (⟨0, v.elems.length - n⟩ : ResizeTrace) = ⟨n - v.elems.length, _⟩
        have : n - v.elems.length = 0 := by omega
        rw [this]
      · rw [if_neg h2]
        show (⟨n - v.elems.length, 0⟩ : ResizeTrace) = ⟨_, v.elems.length - n⟩
        have : v.elems.length - n = 0 := by omega
        rw [this]

/-- Witness for `resize_cases` at a concrete well-formed input. -/
theorem resize_cases_witness :
    (ResizeTr (⟨[1, 2, 3], 4⟩ : Vec Nat) 0 2).1.elems
      = [1, 2, 3].take 2 ++ List.replicate (2 - [1, 2, 3].length) 0 :=
  (resize_cases ⟨[1, 2, 3], 4⟩ 0 2 (by decide)).1

/-- C5: copy-assignment by case.  Self-assignment is a no-op.  When the source
size exceeds the receiver's capacity, a full temporary copy is exchanged in
wholesale (capacity becomes the source size, all source elements are
copy-constructed, the receiver's old elements die with the temporary).  When
source size ≤ receiver size, the first `rhs.size` slots are copy-assigned and
the remaining `size - rhs.size` receiver elements destroyed, capacity
untouched.  When receiver size < source size ≤ capacity, the first `size`
slots are copy-assigned and `rhs.size - size` elements copy-constructed into
the allocated tail, nothing destroyed, capacity untouched.  Scenario:
assigning a 3-element vector into a 10-element/10-capacity one yields size 3,
capacity 10, the 3 copied values, and 7 destroyed originals. -/
theorem copy_assign_cases {α : Type} (lhs rhs : Vec α) :
    CopyAssign true lhs rhs = (lhs, ⟨0, 0, 0, false⟩) ∧
    (lhs.cap < rhs.elems.length →
      CopyAssign false lhs rhs =
        (⟨rhs.elems, rhs.elems.length⟩,
         ⟨0, rhs.elems.length, lhs.elems.length, true⟩)) ∧
    (lhs.WF → rhs.elems.length ≤ lhs.elems.length →
      CopyAssign false lhs rhs =
        (⟨rhs.elems, lhs.cap⟩,
         ⟨rhs.elems.length, 0, lhs.elems.length - rhs.elems.length, false⟩)) ∧
    (lhs.elems.length < rhs.elems.length → rhs.elems.length ≤ lhs.cap →
      CopyAssign false lhs rhs =
        (⟨rhs.elems, lhs.cap⟩,
         ⟨lhs.elems.length, rhs.elems.length - lhs.elems.length, 0, false⟩)) ∧
    CopyAssign false ⟨List.replicate 10 (7 : Nat), 10⟩ ⟨[1, 2, 3], 3⟩ =
      (⟨[1, 2, 3], 10⟩, ⟨3, 0, 7, false⟩) := by
  refine ⟨rfl, ?_, ?_, ?_, by decide⟩ <;> unfold CopyAssign
  · intro hbig
    rw [if_neg Bool.false_ne_true, if_pos hbig]
  · intro hwf hle
    unfold Vec.WF at hwf
    rw [if_neg Bool.false_ne_true, if_neg (by omega), if_pos hle]
  · intro hlt hcap
    rw [if_neg Bool.false_ne_true, if_neg (by omega), if_neg (by omega)]

/-- Witness for `copy_assign_cases` at concrete inputs covering each
hypothesis-guarded case. -/
theorem copy_assign_cases_witness :
    CopyAssign false (⟨[1], 1⟩ : Vec Nat) ⟨[4, 5], 3⟩ =
      (⟨[4, 5], 2⟩, ⟨0, 2, 1, true⟩) ∧
    CopyAssign false (⟨[1, 2, 3], 4⟩ : Vec Nat) ⟨[9], 1⟩ =
      (⟨[9], 4⟩, ⟨1, 0, 2, false⟩) ∧
    CopyAssign false (⟨[1], 4⟩ : Vec Nat) ⟨[4, 5, 6], 3⟩ =
      (⟨[4, 5, 6], 4⟩, ⟨1, 2, 0, false⟩) :=
  ⟨(copy_assign_cases ⟨[1], 1⟩ ⟨[4, 5], 3⟩).2.1 (by decide),
   (copy_assign_cases ⟨[1, 2, 3], 4⟩ ⟨[9], 1⟩).2.2.1 (by decide) (by decide),
   (copy_assign_cases ⟨[1], 4⟩ ⟨[4, 5, 6], 3⟩).2.2.2.1 (by decide) (by decide)⟩

/-- C9: every state reachable from a well-formed state (in particular from a
freshly constructed one) through any sequence of public operations keeps
`size ≤ capacity` (with exactly the first `size` slots holding the live values
in logical order, which is how the embedding represents a state), and no
operation shrinks capacity implicitly: shrinking `Resize`, `Erase` and
`PopBack` all leave the capacity unchanged. -/
theorem reachable_invariant {α : Type} [Inhabited α] :
    (∀ (ops : List (Op α)) (v0 : Vec α), v0.WF → (ops.foldl applyOp v0).WF) ∧
    (∀ (v : Vec α) (n : Nat), n < v.elems.length → (Resize v default n).cap = v.cap) ∧
    (∀ (v : Vec α) (i : Nat), (Erase v i).cap = v.cap) ∧
    (∀ v : Vec α, (PopBack v).cap = v.cap) := by
  refine ⟨?_, ?_, fun v i => rfl, fun v => rfl⟩
  · intro ops
    induction ops with
    | nil => intro v0 h; exact h
    | cons op rest ih =>
      intro v0 h
      exact ih (applyOp v0 op) (applyOp_WF v0 op h)
  · intro v n hn
    unfold Resize ResizeTr
    rw [if_neg (by omega), if_pos hn]

/-- Witness for `reachable_invariant`: a concrete operation sequence from the
empty vector, and a concrete shrinking `Resize`. -/
theorem reachable_invariant_witness :
    ([Op.push 1, Op.push 2, Op.emplaceOp 1 9, Op.eraseOp 0, Op.pop,
        Op.resizeOp 3, Op.reserveOp 7].foldl applyOp (emptyVec : Vec Nat)).WF ∧
    (Resize (⟨[1, 2, 3], 4⟩ : Vec Nat) default 1).cap = 4 :=
  ⟨reachable_invariant.1 _ emptyVec (by decide),
   reachable_invariant.2.1 ⟨[1, 2, 3], 4⟩ 1 (by decide)⟩

/-! Exception-path models.  The element type's operations are made fallible by
threading an explicit failure point; each model records which element
constructors/destructors ran before the failure propagates out of the call. -/

/-- Compile-time element-type properties consulted by the transfer policy. -/
structure TypeTraits where
  nothrowMoveCtor : Bool
  copyCtor : Bool
deriving Repr, DecidableEq

/-- Macro `ISNOTHROWMOVEORCOPYCTOR`:
`std::is_nothrow_move_constructible_v<T> || !std::is_copy_constructible_v<T>`. -/
def ISNOTHROWMOVEORCOPYCTOR (tr : TypeTraits) : Bool :=
  tr.nothrowMoveCtor || !tr.copyCtor

/-- How `MoveDataTo` transferred the elements into the new block. -/
inductive TransferKind where
  | byMove
  | byCopy
deriving Repr, DecidableEq

/-- Outcome of one `MoveDataTo(new_data)` call. -/
structure MoveDataToResult (α : Type) where
  kind : TransferKind
  vec : Vec α
  destroyedOriginals : Nat
  swapped : Bool
  failed : Bool
deriving Repr, DecidableEq

/-- `MoveDataTo(new_data)`: `if constexpr (ISNOTHROWMOVEORCOPYCTOR)` transfer
with `uninitialized_move_n`, else with `uninitialized_copy_n`; afterwards
`DestroyAndSwap` destroys the `size_` originals and swaps the storage.
`copyFailAt = some k` models the copy of original element `k` throwing: then
`uninitialized_copy_n` destroys the `k` copies it made and rethrows, so
`DestroyAndSwap` never runs — no original is destroyed, nothing is swapped,
and the observable state is unchanged (the new block's raw bytes are freed by
`~RawMemory`). -/
def MoveDataTo {α : Type} (tr : TypeTraits) (v : Vec α) (newCap : Nat)
    (copyFailAt : Option Nat) : MoveDataToResult α :=
  if ISNOTHROWMOVEORCOPYCTOR tr then
    ⟨TransferKind.byMove, ⟨v.elems, newCap⟩, v.elems.length, true, false⟩
  else
    match copyFailAt with
    | some k =>
      if k < v.elems.length then
        ⟨TransferKind.byCopy, v, 0, false, true⟩
      else
        ⟨TransferKind.byCopy, ⟨v.elems, newCap⟩, v.elems.length, true, false⟩
    | none => ⟨TransferKind.byCopy, ⟨v.elems, newCap⟩, v.elems.length, true, false⟩

/-- C6: on every reallocation (`MoveDataTo` serves growth and `Reserve`
uniformly), elements are transferred by move exactly when the type's move
construction cannot throw or the type is not copy-constructible; otherwise
they are copied, and if any copy fails no original is destroyed and no storage
is swapped (the container is observably unchanged) — originals are destroyed
and the storage swapped only once every copy has succeeded. -/
theorem transfer_policy {α : Type} (tr : TypeTraits) (v : Vec α) (newCap : Nat) :
    (∀ fa : Option Nat, ((MoveDataTo tr v newCap fa).kind = TransferKind.byMove ↔
      (tr.nothrowMoveCtor = true ∨ tr.copyCtor = false))) ∧
    (∀ k : Nat, ISNOTHROWMOVEORCOPYCTOR tr = false → k < v.elems.length →
      MoveDataTo tr v newCap (some k) = ⟨TransferKind.byCopy, v, 0, false, true⟩) ∧
    (∀ fa : Option Nat, (MoveDataTo tr v newCap fa).failed = false →
      MoveDataTo tr v newCap fa =
        ⟨(MoveDataTo tr v newCap fa).kind, ⟨v.elems, newCap⟩, v.elems.length,
         true, false⟩) := by
  refine ⟨?_, ?_, ?_⟩
  · intro fa
    unfold MoveDataTo ISNOTHROWMOVEORCOPYCTOR
    rcases tr with ⟨nm, cc⟩
    cases nm with
    | true =>
      cases cc with
      | false => simp
      | true => simp
    | false =>
      cases cc with
      | false => simp
      | true =>
        cases fa with
        | none => simp
        | some k =>
          by_cases hk : k < v.elems.length
          · simp [hk]
          · simp [hk]
  · intro k hcond hk
    unfold MoveDataTo
    rw [hcond]
    show (if k < v.elems.length then _ else _) = _
    rw [if_pos hk]
  · intro fa
    unfold MoveDataTo
    by_cases hcond : ISNOTHROWMOVEORCOPYCTOR tr = true
    · rw [if_pos hcond]
      intro _
      rfl
    · rw [if_neg hcond]
      cases fa with
      | none => intro _; rfl
      | some k =>
        by_cases hk : k < v.elems.length
        · intro hfail
          simp [hk] at hfail
        · intro _
          simp [hk]

/-- Witness for `transfer_policy` at concrete inputs: a type with a throwing
move and a copy constructor (copy transfer, failure at element 0 of a
one-element vector), and the same call succeeding. -/
theorem transfer_policy_witness :
    ((MoveDataTo ⟨false, true⟩ (⟨[3], 1⟩ : Vec Nat) 2 none).kind = TransferKind.byMove ↔
      ((false : Bool) = true ∨ (true : Bool) = false)) ∧
    MoveDataTo ⟨false, true⟩ (⟨[3], 1⟩ : Vec Nat) 2 (some 0) =
      ⟨TransferKind.byCopy, ⟨[3], 1⟩, 0, false, true⟩ ∧
    MoveDataTo ⟨false, true⟩ (⟨[3], 1⟩ : Vec Nat) 2 none =
      ⟨(MoveDataTo ⟨false, true⟩ (⟨[3], 1⟩ : Vec Nat) 2 none).kind, ⟨[3], 2⟩, 1,
       true, false⟩ :=
  ⟨(transfer_policy ⟨false, true⟩ ⟨[3], 1⟩ 2).1 none,
   (transfer_policy ⟨false, true⟩ ⟨[3], 1⟩ 2).2.1 0 (by decide) (by decide),
   (transfer_policy ⟨false, true⟩ ⟨[3], 1⟩ 2).2.2 none (by decide)⟩

/-- Outcome of one copy-assignment call under a fallible element copy. -/
structure CopyAssignOutcome (α : Type) where
  receiver : Vec α
  placedInTemp : Nat
  destroyedInCall : Nat
  swapped : Bool
deriving Repr, DecidableEq

/-- `operator=(const Vector&)` with a fallible element copy, non-self path.
In the reallocating case (`rhs.size_ > data_.Capacity()`) the source runs
`Vector rhs_copy(rhs); Swap(rhs_copy);`: the copy constructor places copies
into an isolated block of `rhs.size_`; `copyFailAt = some k` models the copy
of source element `k` throwing, whereupon `uninitialized_copy_n` destroys
exactly the `k` copies it placed, `~RawMemory` frees the isolated block, and
`Swap` never runs — the receiver keeps its size, capacity and every element.
The non-reallocating branches reuse the traced `CopyAssign` result. -/
def CopyAssignFallible {α : Type} (lhs rhs : Vec α) (copyFailAt : Option Nat) :
    CopyAssignOutcome α :=
  if lhs.cap < rhs.elems.length then
    match copyFailAt with
    | some k =>
      if k < rhs.elems.length then ⟨lhs, k, k, false⟩
      else ⟨⟨rhs.elems, rhs.elems.length⟩, rhs.elems.length, lhs.elems.length, true⟩
    | none => ⟨⟨rhs.elems, rhs.elems.length⟩, rhs.elems.length, lhs.elems.length, true⟩
  else
    ⟨(CopyAssign false lhs rhs).1, 0, 0, false⟩

/-- C10: copy-assignment in the reallocating case carries the strong
guarantee: if the copy of any source element fails while the temporary is
being built, the receiver's size, capacity and every element value are exactly
as before the call, exactly the copies already placed in the temporary are
destroyed, and no storage swap happens. -/
theorem copy_assign_realloc_strong {α : Type} (lhs rhs : Vec α) (k : Nat)
    (hgrow : lhs.cap < rhs.elems.length) (hk : k < rhs.elems.length) :
    CopyAssignFallible lhs rhs (some k) = ⟨lhs, k, k, false⟩ ∧
    (CopyAssignFallible lhs rhs (some k)).receiver = lhs ∧
    (CopyAssignFallible lhs rhs (some k)).destroyedInCall =
      (CopyAssignFallible lhs rhs (some k)).placedInTemp ∧
    (CopyAssignFallible lhs rhs (some k)).swapped = false := by
  have hmain : CopyAssignFallible lhs rhs (some k) = ⟨lhs, k, k, false⟩ := by
    unfold CopyAssignFallible
    rw [if_pos hgrow]
    show (if k < rhs.elems.length then _ else _) = _
    rw [if_pos hk]
  exact ⟨hmain, by rw [hmain], by rw [hmain], by rw [hmain]⟩

/-- Witness for `copy_assign_realloc_strong`: a 2-element/2-capacity receiver,
a 5-element source, copy of source element 3 fails. -/
theorem copy_assign_realloc_strong_witness :
    CopyAssignFallible (⟨[1, 2], 2⟩ : Vec Nat) ⟨[4, 5, 6, 7, 8], 5⟩ (some 3) =
      ⟨⟨[1, 2], 2⟩, 3, 3, false⟩ :=
  (copy_assign_realloc_strong ⟨[1, 2], 2⟩ ⟨[4, 5, 6, 7, 8], 5⟩ 3
    (by decide) (by decide)).1

/-- Failure points of `EmplaceInPosition` (no-growth insertion): the
construction of `tmp_value`, the move-construction of the last element into
slot `size_`, or the `k`-th move assignment performed by `move_backward`
(which proceeds from the back; `k` assignments have already completed when the
failing one throws). -/
inductive EmplaceFailPoint where
  | tmpCtor
  | tailMoveCtor
  | shiftAssign (k : Nat)
deriving Repr, DecidableEq

/-- Observable values after `k` completed assignments of
`move_backward(pos, end - 1, end)` on live slots holding `l`: the assignments
run from the back, so slots `length - k, …, length - 1` already hold their
shifted values while the rest are untouched. -/
def shiftAssignApplied {α : Type} (l : List α) (k : Nat) : List α :=
  l.take (l.length - k) ++ (l.drop (l.length - 1 - k)).dropLast

/-- `EmplaceInPosition(position, args)` with a fallible element type.  An
`Except.error` carries the observable container state at the moment the
exception leaves the call.  Source behaviour: a `tmp_value` construction
failure happens before anything is touched; a failure of
`new (data_ + size_) T(std::move(data_[size_ - 1]))` unwinds with only the
temporary destroyed; a failure inside `move_backward` (flagged in the source
with `// can throw exception???`) leaves the `k` already-completed
move assignments in place — there is no handler, `size_` stays, and the
element constructed at slot `size_` is abandoned beyond the live range. -/
def EmplaceInPositionFallible {α : Type} (v : Vec α) (i : Nat) (x : α)
    (fp : Option EmplaceFailPoint) : Except (Vec α) (Vec α) :=
  if i = v.elems.length then
    match fp with
    | some EmplaceFailPoint.tmpCtor => Except.error v
    | _ => Except.ok ⟨v.elems ++ [x], v.cap⟩
  else
    match fp with
    | some EmplaceFailPoint.tmpCtor => Except.error v
    | some EmplaceFailPoint.tailMoveCtor => Except.error v
    | some (EmplaceFailPoint.shiftAssign k) =>
      if k < v.elems.length - 1 - i then
        Except.error ⟨shiftAssignApplied v.elems k, v.cap⟩
      else
        Except.ok ⟨(v.elems.take (i + 1) ++ v.elems.drop i).set i x, v.cap⟩
    | none => Except.ok ⟨(v.elems.take (i + 1) ++ v.elems.drop i).set i x, v.cap⟩

/-- `EmplaceWithAllocation(position, args)` for a copy-transferred element
type, with `copyFailAt = some k` modelling the copy of original element `k`
into the new block throwing: whichever of the two `MoveData` calls it hits,
the `catch` handler destroys the new element together with every copy already
placed in the new block, the failure propagates, and the old array is
untouched. -/
def EmplaceWithAllocationFallible {α : Type} (v : Vec α) (i : Nat) (x : α)
    (copyFailAt : Option Nat) : Except (Vec α) (Vec α) :=
  match copyFailAt with
  | some k =>
    if k < v.elems.length then Except.error v
    else Except.ok (EmplaceWithAllocation v i x)
  | none => Except.ok (EmplaceWithAllocation v i x)

/-- Helper: a partial backward shift preserves the number of live values. -/
theorem shiftAssignApplied_length {α : Type} (l : List α) (k : Nat)
    (h : k + 1 < l.length) :
    (shiftAssignApplied l k).length = l.length := by
  unfold shiftAssignApplied
  rw [List.length_append, List.length_take, List.length_dropLast, List.length_drop]
  omega

/-- C2 counterexample: on `[0, 1, 2, 3]` with capacity 8 (no growth needed),
inserting 9 at position 1 with the second `move_backward` assignment throwing
leaves the observable elements `[0, 1, 2, 2]` — the container is *not*
observably unchanged, refuting the claim that every mid-insertion element
failure leaves it unchanged. -/
theorem emplace_shift_failure_not_unchanged :
    EmplaceInPositionFallible (⟨[0, 1, 2, 3], 8⟩ : Vec Nat) 1 9
      (some (EmplaceFailPoint.shiftAssign 1)) = Except.error ⟨[0, 1, 2, 2], 8⟩ ∧
    (⟨[0, 1, 2, 2], 8⟩ : Vec Nat) ≠ ⟨[0, 1, 2, 3], 8⟩ := by
  exact ⟨rfl, by decide⟩

/-- C2 amended: for a valid interior position on the no-growth path, failure
of the temporary's construction or of the move of the last element into the
new tail slot leaves the container observably unchanged, and a failure during
the backward shift leaves size and capacity unchanged (element values may be
altered); on the growth path (copy transfer), any element-copy failure leaves
the container observably unchanged. -/
theorem emplace_failure_effects {α : Type} (v : Vec α) (i : Nat) (x : α)
    (hlt : i < v.elems.length) :
    EmplaceInPositionFallible v i x (some EmplaceFailPoint.tmpCtor) =
      Except.error v ∧
    EmplaceInPositionFallible v i x (some EmplaceFailPoint.tailMoveCtor) =
      Except.error v ∧
    (∀ (k : Nat) (w : Vec α),
      EmplaceInPositionFallible v i x (some (EmplaceFailPoint.shiftAssign k)) =
        Except.error w →
      w.elems.length = v.elems.length ∧ w.cap = v.cap) ∧
    (∀ k : Nat, k < v.elems.length →
      EmplaceWithAllocationFallible v i x (some k) = Except.error v) := by
  have hne : ¬ i = v.elems.length := Nat.ne_of_lt hlt
  refine ⟨?_, ?_, ?_, ?_⟩
  · unfold EmplaceInPositionFallible
    rw [if_neg hne]
  · unfold EmplaceInPositionFallible
    rw [if_neg hne]
  · intro k w hw
    unfold EmplaceInPositionFallible at hw
    rw [if_neg hne] at hw
    by_cases hk : k < v.elems.length - 1 - i
    · simp only [if_pos hk] at hw
      have hw2 : (⟨shiftAssignApplied v.elems k, v.cap⟩ : Vec α) = w :=
        Except.error.inj hw
      rw [← hw2]
      refine ⟨?_, rfl⟩
      exact shiftAssignApplied_length v.elems k (by omega)
    · simp only [if_neg hk] at hw
      exact absurd hw (by simp)
  · intro k hk
    unfold EmplaceWithAllocationFallible
    show (if k < v.elems.length then _ else _) = _
    rw [if_pos hk]

/-- Witness for `emplace_failure_effects` at a concrete interior position. -/
theorem emplace_failure_effects_witness :
    EmplaceInPositionFallible (⟨[5, 6, 7], 4⟩ : Vec Nat) 0 9
      (some EmplaceFailPoint.tmpCtor) = Except.error ⟨[5, 6, 7], 4⟩ ∧
    EmplaceWithAllocationFallible (⟨[5, 6, 7], 4⟩ : Vec Nat) 0 9 (some 2) =
      Except.error ⟨[5, 6, 7], 4⟩ :=
  ⟨(emplace_failure_effects ⟨[5, 6, 7], 4⟩ 0 9 (by decide)).1,
   (emplace_failure_effects ⟨[5, 6, 7], 4⟩ 0 9 (by decide)).2.2.2 2 (by decide)⟩

/-- Element-destructor bookkeeping of a failed growth-triggering `PushBack`:
the observable container, the new-block slots whose element destructor ran
before the failure propagated, and the new-block slots still holding
constructed elements when `~RawMemory` frees the raw bytes (their destructors
are skipped). -/
structure PushBackFailState (α : Type) where
  vec : Vec α
  destroyedNewSlots : List Nat
  liveNewSlots : List Nat
deriving Repr, DecidableEq

/-- Result of a growth-triggering `PushBack` under a fallible element copy. -/
inductive PushBackResult (α : Type) where
  | ok (v : Vec α)
  | failedWith (f : PushBackFailState α)
deriving Repr, DecidableEq

/-- `PushBack(const T&)` on the `size_ == Capacity()` path, for a
copy-transferred element type (throwing copy, move not `noexcept`): a new
block of `newCapacity size_` is allocated, the new value is copied into slot
`size_`, then `MoveDataTo` runs `uninitialized_copy_n(data_, size_,
new_data)`.  `copyFailAt = some k` models the copy of original element `k`
throwing: `uninitialized_copy_n` destroys the `k` copies it itself constructed
(slots `0, …, k-1`) and rethrows; `PushBack` has no handler, so the tail
element at slot `size_` is never destroyed before `~RawMemory` frees the
block, and the old array is left untouched with `size_` unchanged. -/
def PushBackGrowOnCopyType {α : Type} (v : Vec α) (x : α)
    (copyFailAt : Option Nat) : PushBackResult α :=
  match copyFailAt with
  | some k =>
    if k < v.elems.length then
      PushBackResult.failedWith ⟨v, List.range k, [v.elems.length]⟩
    else
      PushBackResult.ok ⟨v.elems ++ [x], newCapacity v.elems.length⟩
  | none => PushBackResult.ok ⟨v.elems ++ [x], newCapacity v.elems.length⟩

/-- C1, evaluated at the failing input: a 1-element vector at full capacity,
`PushBack(8)` triggers growth, the tail is copied into slot 1 of the new
block, and the transfer of element 0 fails.  The array is left exactly as
before (so that half of the claim holds), but the set of destroyed new-block
slots is empty while slot 1 — the new tail element — is still live when the
raw block is freed: the tail element is *not* destroyed before the failure
propagates, contradicting the claim and the spec. -/
theorem push_back_grow_tail_not_destroyed :
    PushBackGrowOnCopyType (⟨[7], 1⟩ : Vec Nat) 8 (some 0) =
      PushBackResult.failedWith ⟨⟨[7], 1⟩, [], [1]⟩ ∧
    1 ∈ [1] ∧ 1 ∉ ([] : List Nat) := by
  exact ⟨rfl, by decide, by decide⟩

/-- Identity of a heap block handed out by `Allocate` (`operator new`). -/
structure RawMemoryBlock where
  blockId : Option Nat
  capacity : Nat
deriving Repr, DecidableEq

/-- A `Vector` as a resource owner: its `RawMemory` member and live values. -/
structure VectorMem (α : Type) where
  data : RawMemoryBlock
  elems : List α
deriving Repr, DecidableEq

/-- `RawMemory& operator=(RawMemory&& rhs)`, non-self path: `buffer_ =
std::move(rhs.buffer_); capacity_ = std::move(rhs.capacity_); rhs.buffer_ =
nullptr; rhs.capacity_ = 0;`.  The receiver's previous block is overwritten —
it is neither deallocated nor handed to `rhs`. -/
def RawMemoryBlock.moveAssign (_lhs rhs : RawMemoryBlock) :
    RawMemoryBlock × RawMemoryBlock :=
  (⟨rhs.blockId, rhs.capacity⟩, ⟨none, 0⟩)

/-- `Vector& operator=(Vector&& rhs)`, non-self path: `data_ =
std::move(rhs.data_); size_ = std::move(rhs.size_); rhs.size_ = 0;`. -/
def VectorMem.moveAssign {α : Type} (lhs rhs : VectorMem α) :
    VectorMem α × VectorMem α :=
  let p := RawMemoryBlock.moveAssign lhs.data rhs.data
  (⟨p.1, rhs.elems⟩, ⟨p.2, []⟩)

/-- `~RawMemory` calls `Deallocate(buffer_)`: one release when a block is
held, none for a null buffer (`operator delete(nullptr)` is a no-op). -/
def RawMemoryBlock.dtorReleases (m : RawMemoryBlock) : List Nat :=
  match m.blockId with
  | some b => [b]
  | none => []

/-- `~Vector` destroys the live elements and then `~RawMemory` releases the
held block. -/
def VectorMem.dtorReleases {α : Type} (v : VectorMem α) : List Nat :=
  v.data.dtorReleases

/-- Blocks released along the path the claim describes: run `a = move(b)`,
then let `b`'s lifetime end, then `a`'s. -/
def moveAssignScenarioReleases {α : Type} (a b : VectorMem α) : List Nat :=
  let p := VectorMem.moveAssign a b
  p.2.dtorReleases ++ p.1.dtorReleases

/-- C3, evaluated at the failing input: `a` owns block 0 (one element), `b`
owns block 1 (one element); after `a = move(b)` and both lifetimes end, the
complete release list is `[1]` — block 0, `a`'s prior block, is released zero
times instead of exactly once, and `b` is left holding no block at all (the
storage was overwritten, not swapped), contradicting the claim and the spec's
acquire/release pairing invariant. -/
theorem move_assign_drops_old_block :
    moveAssignScenarioReleases (⟨⟨some 0, 1⟩, [5]⟩ : VectorMem Nat)
      ⟨⟨some 1, 1⟩, [6]⟩ = [1] ∧
    (VectorMem.moveAssign (⟨⟨some 0, 1⟩, [5]⟩ : VectorMem Nat)
      ⟨⟨some 1, 1⟩, [6]⟩).2.data.blockId = none ∧
    0 ∉ moveAssignScenarioReleases (⟨⟨some 0, 1⟩, [5]⟩ : VectorMem Nat)
      ⟨⟨some 1, 1⟩, [6]⟩ := by
  exact ⟨rfl, rfl, by decide⟩

end AdvVector
